import Mathlib

/-!
Shallow embedding of the `whl-conf` configuration manager
(`src/whl_conf/config.py` and `src/whl_conf/config_compare.py`).

The working tree is modelled as an association list from working-root-relative
path strings to filesystem entries; the manifest file, the `current` symlink
and the set of configuration-set directories are explicit state components.
Python exceptions are modelled as an `Option Err` result component; operations
that raise leave the state unchanged up to the mutations the source performed
before raising.
-/

namespace WhlConf

/-- Kind of entry occupying a working-tree path.  A symlink is classified by
where it resolves to: into the configuration store (`confs` dir), outside of
it, or nowhere (broken link). -/
inductive Entry where
  | symlinkConfs
  | symlinkOutside
  | symlinkBroken
  | realFile
  | realDir
  deriving DecidableEq, Repr

/-- Working tree: association list from relative path to entry. -/
abbrev Tree := List (String × Entry)

/-- Lookup of a working-tree path (first match, mirroring a filesystem where
paths are unique). -/
def lookupT : Tree → String → Option Entry
  | [], _ => none
  | e :: t, p => if e.1 == p then some e.2 else lookupT t p

/-- Remove every entry at path `p`. -/
def eraseT (t : Tree) (p : String) : Tree :=
  t.filter (fun e => e.1 != p)

/-- Set (create or overwrite) the entry at path `p`. -/
def setT (t : Tree) (p : String) (e : Entry) : Tree :=
  (p, e) :: eraseT t p

/-- On-disk state of the manifest file: absent, present but unparsable, or a
parsed JSON list of relative path strings. -/
inductive MFile where
  | absent
  | corrupt
  | present (entries : List String)
  deriving DecidableEq, Repr

/-- On-disk state of the `current` symlink: absent, present but not resolving
to a direct child directory of the store, or resolving to child dir `name`. -/
inductive CurLink where
  | absent
  | invalid
  | valid (name : String)
  deriving DecidableEq, Repr

/-- State of one configuration store: the working tree, the manifest file, the
`current` pointer, and the configuration-set directories (name, file list). -/
structure St where
  tree : Tree
  manifest : MFile
  current : CurLink
  configs : List (String × List String)
  deriving DecidableEq, Repr

/-- Errors raised by the manager (`ConfigError` hierarchy plus `ValueError`). -/
inductive Err where
  | valueError
  | notFound
  | alreadyExists
  | configError
  | activationFailed
  deriving DecidableEq, Repr

/-! ### Name validation (`ConfigManager._get_config_path`) -/

/-- Characters rejected by `_get_config_path`: the Python source checks
membership in the raw string `/\..:*?<>|` plus the null byte. -/
def illegalChars : List Char :=
  ['/', '\\', '.', '.', ':', '*', '?', '<', '>', '|', Char.ofNat 0]

/-- Validation performed by `_get_config_path`: the name must be a non-empty,
non-whitespace-only string containing none of the illegal characters
(`ValueError` otherwise). -/
def valid_config_name (s : String) : Bool :=
  !(s.data.all (fun c => c.isWhitespace)) &&
  !(s.data.any (fun c => illegalChars.contains c))

/-- Combined gate a user-supplied name must pass in the mutating public
methods: the reserved-name check `name in ['current']` followed by
`_get_config_path` validation. -/
def name_accepted (s : String) : Bool :=
  (s != "current") && valid_config_name s

/-- Directory-existence test at `confs_dir / n` (`Path.is_dir`): either a
configuration-set directory of that name, or the name `current` while the
`current` symlink resolves to a directory. -/
def dirExistsAt (s : St) (n : String) : Bool :=
  s.configs.any (fun c => c.1 == n) ||
  (n == "current" && (match s.current with | .valid _ => true | _ => false))

/-- `ConfigManager._config_exists`: validation failures are caught and mapped
to `false`; otherwise a directory-existence test. -/
def config_exists (s : St) (n : String) : Bool :=
  valid_config_name n && dirExistsAt s n

/-- `ConfigManager._get_active_config_name_unlocked`: the active name, when
the `current` symlink resolves to an existing direct child directory of the
store. -/
def get_active_config_name (s : St) : Option String :=
  match s.current with
  | .valid n => if s.configs.any (fun c => c.1 == n) then some n else none
  | _ => none

/-! ### Manifest (`_read_manifest`) and deactivation -/

/-- `ConfigManager._read_manifest`: an absent manifest file yields `[]`; a
file whose content fails to parse as a JSON list of strings is caught
(`JSONDecodeError` / `TypeError`) and likewise yields `[]`. -/
def read_manifest : MFile → List String
  | .absent => []
  | .corrupt => []
  | .present l => l

/-- One step of the deactivation loop body: remove the entry only when it is
still a symlink whose (strict) resolution lies inside the store; a broken
symlink raises `FileNotFoundError` which is swallowed, a symlink resolving
elsewhere fails the defensive containment check, and a real file or directory
is skipped with a warning. -/
def deactStep (t : Tree) (p : String) : Tree :=
  match lookupT t p with
  | some .symlinkConfs => eraseT t p
  | _ => t

/-- `ConfigManager._deactivate_current_unlocked`: with an empty (or absent or
unparsable) manifest the function returns immediately; otherwise it walks the
manifest entries in reverse, conditionally unlinking each, and finally deletes
the manifest file and the `current` symlink. -/
def deactivate_current_unlocked (s : St) : St :=
  let entries := read_manifest s.manifest
  if entries.isEmpty then s
  else
    { s with
      tree := entries.reverse.foldl deactStep s.tree
      manifest := .absent
      current := .absent }

/-! ### Activation (`activate_config`) and rollback (`_rollback_creation`) -/

/-- Files stored under a configuration-set directory. -/
def configFiles (s : St) (n : String) : List String :=
  match s.configs.find? (fun c => c.1 == n) with
  | some c => c.2
  | none => []

/-- Final path component (`Path.name`): the characters after the last `/`. -/
def baseName (p : String) : String :=
  String.mk (p.data.foldl (fun acc c => if c = '/' then [] else acc ++ [c]) [])

/-- Link-creation plan of `activate_config` phase 2: every file under the
target set except `meta.yaml`, as working-root-relative paths. -/
def planPaths (s : St) (n : String) : List String :=
  (configFiles s n).filter (fun p => baseName p != "meta.yaml")

/-- One step of `_rollback_creation`: unlink the recorded path when it is
still a symlink (of any kind — the rollback performs no containment check). -/
def rollbackStep (t : Tree) (p : String) : Tree :=
  match lookupT t p with
  | some .symlinkConfs => eraseT t p
  | some .symlinkOutside => eraseT t p
  | some .symlinkBroken => eraseT t p
  | _ => t

/-- `ConfigManager._rollback_creation`: walk the recorded paths in reverse,
unlinking each one that is still a symlink. -/
def rollback_creation (t : Tree) (paths : List String) : Tree :=
  paths.reverse.foldl rollbackStep t

/-- Execution of the phase-3 action loop with failure injection.  Each loop
iteration first appends the relative path to `newly_created_paths`, then
replaces whatever occupies the destination with a fresh symlink into the
store.  `failAt = some k` makes the k-th iteration raise after the append but
before any filesystem effect of that iteration.  Returns the resulting tree,
the recorded `newly_created_paths`, and whether a failure occurred. -/
def execActs (t : Tree) (plan : List String) (failAt : Option Nat) :
    Tree × List String × Bool :=
  match plan with
  | [] => (t, [], false)
  | p :: rest =>
    match failAt with
    | some 0 => (t, [p], true)
    | some (k + 1) =>
      let out := execActs (setT t p .symlinkConfs) rest (some k)
      (out.1, p :: out.2.1, out.2.2)
    | none =>
      let out := execActs (setT t p .symlinkConfs) rest none
      (out.1, p :: out.2.1, out.2.2)

/-- Observable side effects of one `activate_config` call: whether the
deactivation step ran, and the `newly_created_paths` list recorded by the
execution loop. -/
structure Trace where
  deactivated : Bool
  created : List String
  deriving DecidableEq, Repr

/-- `ConfigManager.activate_config` (with `failAt` injecting a failure into
the phase-3 loop): reserved-name check, name validation, target existence
check, deactivation of the current configuration when one is active (skipped
in a dry run), planning, and — unless a dry run — execution followed either by
the atomic manifest write and `current` repoint, or by rollback plus a
`ConfigError` (activation-failed) wrapping the cause. -/
def activate_config (s : St) (name : String) (dryRun : Bool)
    (failAt : Option Nat) : St × Option Err × Trace :=
  if name == "current" then (s, some .valueError, ⟨false, []⟩)
  else if !(valid_config_name name) then (s, some .valueError, ⟨false, []⟩)
  else if !(dirExistsAt s name) then (s, some .notFound, ⟨false, []⟩)
  else
    let activeName := get_active_config_name s
    if dryRun then (s, none, ⟨false, []⟩)
    else
      let s1 := if activeName.isSome then deactivate_current_unlocked s else s
      let plan := planPaths s1 name
      let out := execActs s1.tree plan failAt
      if out.2.2 then
        ({ s1 with tree := rollback_creation out.1 out.2.1 },
         some .activationFailed, ⟨activeName.isSome, out.2.1⟩)
      else
        ({ s1 with tree := out.1, manifest := .present out.2.1,
                   current := .valid name },
         none, ⟨activeName.isSome, out.2.1⟩)

/-! ### create / delete / rename (`create_config`, `delete_config`,
`rename_config`) -/

/-- `ConfigManager.create_config`: reserved-name check, template existence,
target non-existence, then path resolution (which re-validates both names) and
the directory copy. -/
def create_config (s : St) (tmpl newName : String) : St × Option Err :=
  if newName == "current" then (s, some .valueError)
  else if !(config_exists s tmpl) then (s, some .notFound)
  else if config_exists s newName then (s, some .alreadyExists)
  else if !(valid_config_name tmpl) then (s, some .valueError)
  else if !(valid_config_name newName) then (s, some .valueError)
  else ({ s with configs := s.configs ++ [(newName, configFiles s tmpl)] }, none)

/-- `ConfigManager.delete_config`: reserved-name check, existence check,
active-configuration guard, then recursive deletion. -/
def delete_config (s : St) (name : String) : St × Option Err :=
  if name == "current" then (s, some .valueError)
  else if !(config_exists s name) then (s, some .notFound)
  else if get_active_config_name s == some name then (s, some .configError)
  else if !(valid_config_name name) then (s, some .valueError)
  else ({ s with configs := s.configs.filter (fun c => c.1 != name) }, none)

/-- `ConfigManager.rename_config`: reserved-name check on both names, source
validation and existence, target validation and non-existence, the
active-configuration guard, and only then the directory rename. -/
def rename_config (s : St) (old new : String) : St × Option Err :=
  if old == "current" || new == "current" then (s, some .valueError)
  else if !(valid_config_name old) then (s, some .valueError)
  else if !(dirExistsAt s old) then (s, some .notFound)
  else if !(valid_config_name new) then (s, some .valueError)
  else if dirExistsAt s new then (s, some .alreadyExists)
  else if get_active_config_name s == some old then (s, some .configError)
  else
    ({ s with configs :=
        s.configs.map (fun c => if c.1 == old then (new, c.2) else c) }, none)

/-! ### Comparator (`config_compare.py`) -/

/-- Metadata of one file in a configuration set, as gathered by
`ConfigComparator._scan_directory` plus the SHA-256 digest
`_calculate_sha256` would produce for it (`""` for an unreadable file). -/
structure FileMeta where
  size : Nat
  mtime : Int
  digest : String
  deriving DecidableEq, Repr

/-- Scanned inventory of one configuration set: relative path to metadata. -/
abbrev Inventory := List (String × FileMeta)

/-- Paths of an inventory. -/
def keysOf (inv : Inventory) : List String := inv.map (fun e => e.1)

/-- Membership test on inventory paths. -/
def memKeys (inv : Inventory) (p : String) : Bool :=
  inv.any (fun e => e.1 == p)

/-- First metadata recorded for a path. -/
def lookupInv (inv : Inventory) (p : String) : Option FileMeta :=
  match inv.find? (fun e => e.1 == p) with
  | some e => some e.2
  | none => none

/-- Ordered insertion used to model Python's `sorted` on strings. -/
def insortStr (x : String) : List String → List String
  | [] => [x]
  | y :: ys => if x < y then x :: y :: ys else y :: insortStr x ys

/-- Sorting used to model Python's `sorted` on strings. -/
def sortStr (l : List String) : List String :=
  l.foldr insortStr []

/-- Classification of one common path in `ConfigComparator.compare`: the
size/mtime fast path, then the digest comparison `hash1 and hash1 == hash2`
(an empty first digest always classifies as different). -/
def classifyIdentical (m1 m2 : FileMeta) : Bool :=
  if m1.size == m2.size && m1.mtime == m2.mtime then true
  else m1.digest != "" && m1.digest == m2.digest

/-- Structured result of `ConfigComparator.compare`. -/
structure CmpResult where
  only_in_config1 : List String
  only_in_config2 : List String
  identical : List String
  different : List String
  deriving DecidableEq, Repr

/-- `ConfigComparator.compare` over two scanned inventories: set differences
(sorted) for the only-in buckets, and per-common-path classification into the
`identical` (sorted) and `different` buckets. -/
def compare_inventories (inv1 inv2 : Inventory) : CmpResult :=
  let commons := (keysOf inv1).filter (fun p => memKeys inv2 p)
  let classify := fun p =>
    match lookupInv inv1 p, lookupInv inv2 p with
    | some m1, some m2 => classifyIdentical m1 m2
    | _, _ => false
  { only_in_config1 := sortStr ((keysOf inv1).filter (fun p => !(memKeys inv2 p)))
    only_in_config2 := sortStr ((keysOf inv2).filter (fun p => !(memKeys inv1 p)))
    identical := sortStr (commons.filter classify)
    different := commons.filter (fun p => !(classify p)) }

/-! ## Auxiliary lemmas -/

/-- Boolean membership on path lists. -/
def memStr (x : String) : List String → Bool
  | [] => false
  | y :: ys => (x == y) || memStr x ys

theorem memStr_iff (x : String) (l : List String) : memStr x l = true ↔ x ∈ l := by
  induction l with
  | nil => simp [memStr]
  | cons y ys ih => simp [memStr, ih]

theorem eraseT_cons (e : String × Entry) (t : Tree) (p : String) :
    eraseT (e :: t) p = if e.1 = p then eraseT t p else e :: eraseT t p := by
  by_cases h : e.1 = p <;> simp [eraseT, List.filter_cons, h]

theorem lookupT_cons (e : String × Entry) (t : Tree) (q : String) :
    lookupT (e :: t) q = if e.1 = q then some e.2 else lookupT t q := by
  by_cases h : e.1 = q <;> simp [lookupT, h]

theorem lookupT_eraseT (t : Tree) (p q : String) :
    lookupT (eraseT t p) q = if q = p then none else lookupT t q := by
  induction t with
  | nil => simp [eraseT, lookupT]
  | cons e t ih =>
    rw [eraseT_cons, lookupT_cons]
    by_cases h1 : e.1 = p
    · rw [if_pos h1, ih]
      by_cases h3 : q = p
      · simp [h3]
      · have h2 : ¬ e.1 = q := fun hh => h3 (hh.symm.trans h1)
        simp [h3, h2]
    · rw [if_neg h1, lookupT_cons]
      by_cases h2 : e.1 = q
      · have h3 : ¬ q = p := fun hh => h1 (h2.trans hh)
        simp [h2, h3]
      · simp [h2, ih]

theorem lookupT_setT (t : Tree) (p : String) (e : Entry) (q : String) :
    lookupT (setT t p e) q = if q = p then some e else lookupT t q := by
  rw [setT, lookupT_cons]
  by_cases h : q = p
  · simp [h]
  · rw [if_neg (fun hh : p = q => h hh.symm), if_neg h, lookupT_eraseT, if_neg h]

theorem eraseT_of_lookupT_none (t : Tree) (p : String)
    (h : lookupT t p = none) : eraseT t p = t := by
  induction t with
  | nil => rfl
  | cons e t ih =>
    rw [lookupT_cons] at h
    by_cases h1 : e.1 = p
    · simp [h1] at h
    · rw [eraseT_cons, if_neg h1, ih (by simpa [h1] using h)]

/-- Tree obtained after the phase-3 loop has created symlinks for the paths
`ps` (in order) on top of `t`. -/
def applyCreates (t : Tree) (ps : List String) : Tree :=
  ps.foldl (fun t p => setT t p .symlinkConfs) t

theorem execActs_none (t : Tree) (plan : List String) :
    execActs t plan none = (applyCreates t plan, plan, false) := by
  induction plan generalizing t with
  | nil => rfl
  | cons p rest ih => simp [execActs, applyCreates, ih, List.foldl_cons]

theorem execActs_fail (t : Tree) (plan : List String) (k : Nat)
    (h : k < plan.length) :
    execActs t plan (some k) =
      (applyCreates t (plan.take k), plan.take (k + 1), true) := by
  induction plan generalizing t k with
  | nil => simp at h
  | cons p rest ih =>
    cases k with
    | zero => simp [execActs, applyCreates]
    | succ k =>
      have hk : k < rest.length := by simpa using h
      simp [execActs, ih _ _ hk, applyCreates, List.foldl_cons]

theorem lookupT_applyCreates (t : Tree) (ps : List String) (q : String) :
    lookupT (applyCreates t ps) q =
      if q ∈ ps then some .symlinkConfs else lookupT t q := by
  induction ps generalizing t with
  | nil => simp [applyCreates]
  | cons p rest ih =>
    rw [applyCreates, List.foldl_cons]
    show lookupT (applyCreates (setT t p .symlinkConfs) rest) q = _
    rw [ih, lookupT_setT]
    by_cases h1 : q ∈ rest
    · simp [h1]
    · by_cases h2 : q = p <;> simp [h1, h2]

theorem foldl_eraseT_eq_filter (L : List String) (t : Tree) :
    L.foldl eraseT t = t.filter (fun e => !(memStr e.1 L)) := by
  induction L generalizing t with
  | nil => simp [memStr]
  | cons q L ih =>
    rw [List.foldl_cons, ih, eraseT, List.filter_filter]
    refine List.filter_congr (fun e _ => ?_)
    by_cases h1 : e.1 = q <;> simp [memStr, h1, bne, Bool.and_comm]

theorem memStr_reverse (x : String) (l : List String) :
    memStr x l.reverse = memStr x l := by
  by_cases h : x ∈ l
  · rw [(memStr_iff x l).mpr h, (memStr_iff x l.reverse).mpr (List.mem_reverse.mpr h)]
  · cases h1 : memStr x l with
    | true => exact absurd ((memStr_iff x l).mp h1) h
    | false =>
      cases h2 : memStr x l.reverse with
      | true => exact absurd (List.mem_reverse.mp ((memStr_iff x l.reverse).mp h2)) h
      | false => rfl

theorem lookupT_ne_none_of_mem (t : Tree) (e : String × Entry) (he : e ∈ t) :
    lookupT t e.1 ≠ none := by
  induction t with
  | nil => simp at he
  | cons a t ih =>
    rw [lookupT_cons]
    rcases List.mem_cons.mp he with h | h
    · simp [h]
    · by_cases h1 : a.1 = e.1
      · simp [h1]
      · simpa [h1] using ih h

theorem foldl_rollbackStep_eq_eraseT (L : List String) (t : Tree)
    (h : ∀ q ∈ L, lookupT t q = none ∨ lookupT t q = some .symlinkConfs) :
    L.foldl rollbackStep t = L.foldl eraseT t := by
  induction L generalizing t with
  | nil => rfl
  | cons q L ih =>
    have hq := h q (by simp)
    have hstep : rollbackStep t q = eraseT t q := by
      rcases hq with hq | hq
      · simp [rollbackStep, hq, eraseT_of_lookupT_none t q hq]
      · simp [rollbackStep, hq]
    rw [List.foldl_cons, List.foldl_cons, hstep]
    refine ih (eraseT t q) (fun r hr => ?_)
    rw [lookupT_eraseT]
    by_cases h2 : r = q
    · simp [h2]
    · simpa [h2] using h r (by simp [hr])

theorem filter_applyCreates (t : Tree) (ps qs : List String)
    (hsub : ∀ p ∈ ps, p ∈ qs) :
    (applyCreates t ps).filter (fun e => !(memStr e.1 qs)) =
      t.filter (fun e => !(memStr e.1 qs)) := by
  induction ps generalizing t with
  | nil => rfl
  | cons p rest ih =>
    rw [applyCreates, List.foldl_cons]
    show (applyCreates (setT t p .symlinkConfs) rest).filter _ = _
    rw [ih _ (fun r hr => hsub r (by simp [hr]))]
    have hp : p ∈ qs := hsub p (by simp)
    have hmem : memStr p qs = true := (memStr_iff p qs).mpr hp
    rw [setT, List.filter_cons]
    simp only [hmem, Bool.not_true, if_false]
    rw [eraseT, List.filter_filter]
    refine List.filter_congr (fun e _ => ?_)
    by_cases h1 : e.1 = p <;> simp [h1, hmem]

theorem rollback_restores (t : Tree) (ps qs : List String)
    (hsub : ∀ p ∈ ps, p ∈ qs)
    (hfresh : ∀ q ∈ qs, lookupT t q = none) :
    rollback_creation (applyCreates t ps) qs = t := by
  have hcond : ∀ q ∈ qs.reverse,
      lookupT (applyCreates t ps) q = none ∨
      lookupT (applyCreates t ps) q = some .symlinkConfs := by
    intro q hq
    have hq' : q ∈ qs := List.mem_reverse.mp hq
    rw [lookupT_applyCreates]
    by_cases h : q ∈ ps
    · right; simp [h]
    · left; simp [h, hfresh q hq']
  rw [rollback_creation, foldl_rollbackStep_eq_eraseT _ _ hcond,
    foldl_eraseT_eq_filter]
  have hfun : (fun e : String × Entry => !(memStr e.1 qs.reverse)) =
      (fun e : String × Entry => !(memStr e.1 qs)) :=
    funext (fun e => by rw [memStr_reverse])
  rw [hfun, filter_applyCreates t ps qs hsub]
  refine List.filter_eq_self.mpr (fun e he => ?_)
  have hno : lookupT t e.1 ≠ none := lookupT_ne_none_of_mem t e he
  cases hmem : memStr e.1 qs with
  | false => rfl
  | true => exact absurd (hfresh e.1 ((memStr_iff e.1 qs).mp hmem)) hno

theorem lookupT_foldl_deactStep (L : List String) (t : Tree) (q : String) :
    lookupT (L.foldl deactStep t) q =
      if q ∈ L ∧ lookupT t q = some .symlinkConfs then none
      else lookupT t q := by
  induction L generalizing t with
  | nil => simp
  | cons p L ih =>
    rw [List.foldl_cons, ih]
    by_cases hsym : lookupT t p = some .symlinkConfs
    · have hstep : deactStep t p = eraseT t p := by simp [deactStep, hsym]
      rw [hstep, lookupT_eraseT]
      by_cases hq : q = p
      · simp [hq, hsym]
      · simp only [if_neg hq]
        by_cases hqL : q ∈ L <;> simp [hq, hqL]
    · have hstep : deactStep t p = t := by
        cases hl : lookupT t p with
        | none => simp [deactStep, hl]
        | some e =>
          cases e
          case symlinkConfs => exact absurd hl hsym
          all_goals simp [deactStep, hl]
      rw [hstep]
      by_cases hq : q = p
      · have hq' : ¬ lookupT t q = some .symlinkConfs := hq ▸ hsym
        simp [hq, hq', hsym]
      · by_cases hqL : q ∈ L <;> simp [hq, hqL]

theorem char_rejected (ch : Char) (hch : illegalChars.contains ch = true)
    (s : String) (hmem : ch ∈ s.data) : valid_config_name s = false := by
  rw [valid_config_name]
  have hany : s.data.any (fun c => illegalChars.contains c) = true :=
    List.any_eq_true.mpr ⟨ch, hmem, hch⟩
  simp only [hany, Bool.not_true, Bool.and_false]

/-! ## Theorems -/

/-- C1 (amended): when no configuration is active at the start of the call
and none of the planned destination paths is already occupied, an activation
that fails after creating `k` links removes exactly those `k` links (the
rollback walks the recorded paths in reverse) and raises the
activation-failed `ConfigError` wrapping the cause, leaving the manifest, the
active pointer and the whole working tree at their pre-activation values.
When a configuration was active, the deactivation step has already deleted
the manifest and pointer before the link phase and a failure does not restore
them. -/
theorem activation_rollback_amended (s : St) (name : String) (k : Nat)
    (h1 : name ≠ "current") (h2 : valid_config_name name = true)
    (h3 : dirExistsAt s name = true) (h4 : get_active_config_name s = none)
    (h5 : k < (planPaths s name).length)
    (h6 : ∀ p ∈ planPaths s name, lookupT s.tree p = none) :
    (activate_config s name false (some k)).2.1 = some .activationFailed ∧
    (activate_config s name false (some k)).1 = s := by
  have hbeq : (name == "current") = false := by
    simpa using h1
  have hres : activate_config s name false (some k) =
      ({ s with tree := rollback_creation (applyCreates s.tree ((planPaths s name).take k)) ((planPaths s name).take (k + 1)) },
       some .activationFailed, ⟨false, (planPaths s name).take (k + 1)⟩) := by
    rw [activate_config]
    simp only [hbeq, h2, h3, h4, Bool.not_true, Bool.false_eq_true, if_false,
      Option.isSome_none, Bool.not_false, if_true]
    rw [execActs_fail _ _ _ h5]
    simp
  rw [hres]
  refine ⟨rfl, ?_⟩
  have hsub : ∀ p ∈ (planPaths s name).take k,
      p ∈ (planPaths s name).take (k + 1) := by
    intro p hp
    have : p ∈ ((planPaths s name).take (k + 1)).take k := by
      rwa [List.take_take, Nat.min_def, if_pos (Nat.le_succ k)]
    exact List.take_subset k _ this
  have hfresh : ∀ q ∈ (planPaths s name).take (k + 1),
      lookupT s.tree q = none :=
    fun q hq => h6 q (List.take_subset (k + 1) _ hq)
  rw [rollback_restores s.tree _ _ hsub hfresh]

/-- C1 (counterexample): the claim as stated fails.  First scenario: with a
configuration active before the call, a failed activation leaves the manifest
deleted by the deactivation step, not at its pre-activation value.  Second
scenario: after `k = 1` created links, the rollback also unlinks a
pre-existing working-tree symlink at the failing action's destination, so
more than those `k` links are removed. -/
theorem activation_rollback_counterexample :
    (let s : St := { tree := [("f", .symlinkConfs)],
                     manifest := .present ["f"],
                     current := .valid "a",
                     configs := [("a", ["f"]), ("b", ["g"])] }
     (activate_config s "b" false (some 0)).2.1 = some .activationFailed ∧
     s.manifest = .present ["f"] ∧
     (activate_config s "b" false (some 0)).1.manifest = .absent ∧
     (activate_config s "b" false (some 0)).1.current = .absent) ∧
    (let s : St := { tree := [("q", .symlinkConfs)],
                     manifest := .absent,
                     current := .absent,
                     configs := [("b", ["p", "q"])] }
     (activate_config s "b" false (some 1)).2.1 = some .activationFailed ∧
     lookupT s.tree "q" = some .symlinkConfs ∧
     lookupT (activate_config s "b" false (some 1)).1.tree "q" = none) := by
  decide

/-- C1 (witness): the amended rollback theorem applied to a concrete store. -/
theorem activation_rollback_amended_witness :
    (activate_config
        { tree := [], manifest := .absent, current := .absent,
          configs := [("b", ["p", "q"])] }
        "b" false (some 1)).2.1 = some .activationFailed ∧
    (activate_config
        { tree := [], manifest := .absent, current := .absent,
          configs := [("b", ["p", "q"])] }
        "b" false (some 1)).1 =
      { tree := [], manifest := .absent, current := .absent,
        configs := [("b", ["p", "q"])] } :=
  activation_rollback_amended
    { tree := [], manifest := .absent, current := .absent,
      configs := [("b", ["p", "q"])] }
    "b" 1 (by decide) (by decide) (by decide) (by decide) (by decide)
    (by decide)

/-- C7: the comparator is symmetric — the only-in-first bucket of
`compare(A,B)` equals the only-in-second bucket of `compare(B,A)`, and vice
versa, for every pair of scanned inventories. -/
theorem comparator_symmetry (inv1 inv2 : Inventory) :
    (compare_inventories inv1 inv2).only_in_config1 =
      (compare_inventories inv2 inv1).only_in_config2 ∧
    (compare_inventories inv1 inv2).only_in_config2 =
      (compare_inventories inv2 inv1).only_in_config1 := by
  exact ⟨rfl, rfl⟩

/-- C2 (code evaluated at the failing input): `activate_config` has no
idempotency check — re-activating the already-active configuration `a`
performs the deactivation step, re-creates every link, and rewrites the
manifest (here reordering its entries), instead of being a no-op. -/
theorem reactivation_not_noop :
    (let s : St := { tree := [("f", .symlinkConfs), ("g", .symlinkConfs)],
                     manifest := .present ["g", "f"],
                     current := .valid "a",
                     configs := [("a", ["f", "g"])] }
     get_active_config_name s = some "a" ∧
     (activate_config s "a" false none).2.2.deactivated = true ∧
     (activate_config s "a" false none).2.2.created = ["f", "g"] ∧
     (activate_config s "a" false none).1.manifest = .present ["f", "g"] ∧
     s.manifest = .present ["g", "f"]) := by
  decide

/-- C3: for every successful non-dry-run activation, the manifest written is
exactly the list of working-tree symlinks the activation created
(`newly_created_paths`), and every path in it is a symlink in the resulting
working tree. -/
theorem activation_manifest_complete (s : St) (name : String)
    (h1 : name ≠ "current") (h2 : valid_config_name name = true)
    (h3 : dirExistsAt s name = true) :
    (activate_config s name false none).2.1 = none ∧
    (activate_config s name false none).1.manifest =
      .present (activate_config s name false none).2.2.created ∧
    ∀ p ∈ (activate_config s name false none).2.2.created,
      lookupT (activate_config s name false none).1.tree p =
        some .symlinkConfs := by
  have hbeq : (name == "current") = false := by simpa using h1
  rw [activate_config]
  simp only [hbeq, h2, h3, Bool.not_true, Bool.false_eq_true, if_false,
    Bool.not_false, if_true]
  cases hact : (get_active_config_name s).isSome
  case false =>
    simp only [hact, Bool.false_eq_true, if_false]
    rw [execActs_none]
    refine ⟨rfl, rfl, fun p hp => ?_⟩
    have hp' : p ∈ planPaths s name := hp
    show lookupT (applyCreates s.tree (planPaths s name)) p =
      some .symlinkConfs
    rw [lookupT_applyCreates]
    simp [hp']
  case true =>
    simp only [hact, if_true]
    rw [execActs_none]
    refine ⟨rfl, rfl, fun p hp => ?_⟩
    have hp' : p ∈ planPaths (deactivate_current_unlocked s) name := hp
    show lookupT (applyCreates (deactivate_current_unlocked s).tree
      (planPaths (deactivate_current_unlocked s) name)) p =
      some .symlinkConfs
    rw [lookupT_applyCreates]
    simp [hp']

/-- C3 (witness): the manifest-completeness theorem at a concrete store. -/
theorem activation_manifest_complete_witness :
    (activate_config
        { tree := [], manifest := .absent, current := .absent,
          configs := [("b", ["p", "dir/meta.yaml"])] }
        "b" false none).2.1 = none ∧
    (activate_config
        { tree := [], manifest := .absent, current := .absent,
          configs := [("b", ["p", "dir/meta.yaml"])] }
        "b" false none).1.manifest =
      .present (activate_config
        { tree := [], manifest := .absent, current := .absent,
          configs := [("b", ["p", "dir/meta.yaml"])] }
        "b" false none).2.2.created ∧
    ∀ p ∈ (activate_config
        { tree := [], manifest := .absent, current := .absent,
          configs := [("b", ["p", "dir/meta.yaml"])] }
        "b" false none).2.2.created,
      lookupT (activate_config
        { tree := [], manifest := .absent, current := .absent,
          configs := [("b", ["p", "dir/meta.yaml"])] }
        "b" false none).1.tree p = some .symlinkConfs :=
  activation_manifest_complete
    { tree := [], manifest := .absent, current := .absent,
      configs := [("b", ["p", "dir/meta.yaml"])] }
    "b" (by decide) (by decide) (by decide)

/-- C4 (amended): during deactivation with a non-empty (parsable) manifest, a
listed working-tree path is removed if and only if it is still a symlink
resolving into the configuration store (non-symlinks, broken symlinks and
symlinks pointing elsewhere are skipped), other paths are untouched, and
afterwards the manifest file and the active pointer are deleted; an empty or
unparsable manifest causes an early return that leaves both in place. -/
theorem deactivation_amended (s : St)
    (h : read_manifest s.manifest ≠ []) :
    (deactivate_current_unlocked s).manifest = .absent ∧
    (deactivate_current_unlocked s).current = .absent ∧
    (deactivate_current_unlocked s).configs = s.configs ∧
    ∀ q, lookupT (deactivate_current_unlocked s).tree q =
      if q ∈ read_manifest s.manifest ∧ lookupT s.tree q = some .symlinkConfs
      then none else lookupT s.tree q := by
  have hne : (read_manifest s.manifest).isEmpty = false := by
    cases hm : read_manifest s.manifest with
    | nil => exact absurd hm h
    | cons a l => rfl
  rw [deactivate_current_unlocked]
  simp only [hne, Bool.false_eq_true, if_false]
  refine ⟨?_, ?_, ?_, fun q => ?_⟩ <;> try trivial
  rw [lookupT_foldl_deactStep]
  simp [List.mem_reverse]

/-- C4 (counterexample): the claim as stated fails.  A manifest-listed
working-tree entry that is a symlink pointing outside the configuration store
is not removed (the defensive containment check skips it), and with an
empty-list manifest the deactivation returns early without deleting the
manifest file or the active pointer. -/
theorem deactivation_counterexample :
    (let s : St := { tree := [("x", .symlinkOutside)],
                     manifest := .present ["x"],
                     current := .valid "a", configs := [("a", [])] }
     lookupT (deactivate_current_unlocked s).tree "x" =
       some .symlinkOutside) ∧
    (let s : St := { tree := [], manifest := .present [],
                     current := .valid "a", configs := [("a", [])] }
     (deactivate_current_unlocked s).current = .valid "a" ∧
     (deactivate_current_unlocked s).manifest = .present []) := by
  decide

/-- C4 (witness): the amended deactivation theorem at a concrete store. -/
theorem deactivation_amended_witness :
    (deactivate_current_unlocked
        { tree := [("f", .symlinkConfs), ("x", .realFile)],
          manifest := .present ["f", "x"],
          current := .valid "a", configs := [("a", ["f"])] }).manifest =
      .absent ∧
    (deactivate_current_unlocked
        { tree := [("f", .symlinkConfs), ("x", .realFile)],
          manifest := .present ["f", "x"],
          current := .valid "a", configs := [("a", ["f"])] }).current =
      .absent ∧
    (deactivate_current_unlocked
        { tree := [("f", .symlinkConfs), ("x", .realFile)],
          manifest := .present ["f", "x"],
          current := .valid "a", configs := [("a", ["f"])] }).configs =
      [("a", ["f"])] ∧
    ∀ q, lookupT (deactivate_current_unlocked
        { tree := [("f", .symlinkConfs), ("x", .realFile)],
          manifest := .present ["f", "x"],
          current := .valid "a", configs := [("a", ["f"])] }).tree q =
      if q ∈ read_manifest (MFile.present ["f", "x"]) ∧
          lookupT [("f", .symlinkConfs), ("x", .realFile)] q =
            some .symlinkConfs
      then none
      else lookupT [("f", .symlinkConfs), ("x", .realFile)] q :=
  deactivation_amended
    { tree := [("f", .symlinkConfs), ("x", .realFile)],
      manifest := .present ["f", "x"],
      current := .valid "a", configs := [("a", ["f"])] }
    (by decide)

/-- C8: a manifest file whose content fails to parse is treated exactly like
an absent manifest — `_read_manifest` returns the empty list instead of
raising, and deactivation (the operation that consults the manifest to decide
which links it owns) proceeds as if no links are owned, changing nothing. -/
theorem corrupt_manifest_recovery (s : St) (h : s.manifest = .corrupt) :
    read_manifest s.manifest = [] ∧
    read_manifest s.manifest = read_manifest .absent ∧
    deactivate_current_unlocked s = s := by
  refine ⟨by rw [h]; rfl, by rw [h]; rfl, ?_⟩
  rw [deactivate_current_unlocked, h]
  rfl

/-- C8 (witness): the corrupt-manifest theorem at a concrete store. -/
theorem corrupt_manifest_recovery_witness :
    read_manifest (St.manifest
        { tree := [("f", .symlinkConfs)], manifest := .corrupt,
          current := .valid "a", configs := [("a", ["f"])] }) = [] ∧
    read_manifest (St.manifest
        { tree := [("f", .symlinkConfs)], manifest := .corrupt,
          current := .valid "a", configs := [("a", ["f"])] }) =
      read_manifest .absent ∧
    deactivate_current_unlocked
        { tree := [("f", .symlinkConfs)], manifest := .corrupt,
          current := .valid "a", configs := [("a", ["f"])] } =
      { tree := [("f", .symlinkConfs)], manifest := .corrupt,
        current := .valid "a", configs := [("a", ["f"])] } :=
  corrupt_manifest_recovery
    { tree := [("f", .symlinkConfs)], manifest := .corrupt,
      current := .valid "a", configs := [("a", ["f"])] }
    rfl

/-- C9: renaming the currently active configuration always raises before any
mutation — for every store state in which `old` is active, `rename_config`
returns an error and leaves the state (configuration directories, manifest
and active pointer) unchanged. -/
theorem rename_active_forbidden (s : St) (old new : String)
    (h : get_active_config_name s = some old) :
    (rename_config s old new).2.isSome = true ∧
    (rename_config s old new).1 = s := by
  rw [rename_config]
  split_ifs <;> simp_all

/-- C9 (witness): the rename-active theorem at a concrete store. -/
theorem rename_active_forbidden_witness :
    (rename_config
        { tree := [], manifest := .absent, current := .valid "a",
          configs := [("a", ["f"])] } "a" "b").2.isSome = true ∧
    (rename_config
        { tree := [], manifest := .absent, current := .valid "a",
          configs := [("a", ["f"])] } "a" "b").1 =
      { tree := [], manifest := .absent, current := .valid "a",
        configs := [("a", ["f"])] } :=
  rename_active_forbidden
    { tree := [], manifest := .absent, current := .valid "a",
      configs := [("a", ["f"])] }
    "a" "b" (by decide)

/-- C5 (amended): name validation fails for the empty string, for any name
containing a path separator (either direction), a dot (hence any
parent-directory token), a colon, or a null byte — in particular for "a/b"
and "a..b" — and the mutating methods additionally reject the exact reserved
token "current" (a case-sensitive check); "abc123" and "my-config" pass the
combined gate. -/
theorem name_validation_amended :
    valid_config_name "" = false ∧
    name_accepted "current" = false ∧
    (∀ s : String, '/' ∈ s.data → valid_config_name s = false) ∧
    (∀ s : String, '\\' ∈ s.data → valid_config_name s = false) ∧
    (∀ s : String, '.' ∈ s.data → valid_config_name s = false) ∧
    (∀ s : String, ':' ∈ s.data → valid_config_name s = false) ∧
    (∀ s : String, Char.ofNat 0 ∈ s.data → valid_config_name s = false) ∧
    valid_config_name "a/b" = false ∧
    valid_config_name "a..b" = false ∧
    name_accepted "abc123" = true ∧
    name_accepted "my-config" = true := by
  refine ⟨by decide, by decide,
    fun s h => char_rejected '/' (by decide) s h,
    fun s h => char_rejected '\\' (by decide) s h,
    fun s h => char_rejected '.' (by decide) s h,
    fun s h => char_rejected ':' (by decide) s h,
    fun s h => char_rejected (Char.ofNat 0) (by decide) s h,
    by decide, by decide, by decide, by decide⟩

/-- C5 (counterexample): the reserved-token check is case-sensitive, not
case-insensitive as claimed — "Current", which case-insensitively equals
"current", passes the combined validation gate of the mutating methods. -/
theorem name_validation_counterexample :
    name_accepted "Current" = true ∧
    "Current".data.map Char.toLower = "current".data := by
  decide

/-- C5 (witness): the amended validation theorem applied to "x/y". -/
theorem name_validation_amended_witness :
    valid_config_name "x/y" = false :=
  name_validation_amended.2.2.1 "x/y" (by decide)

/-- C6 (amended): for a path present in both sets whose size/mtime fast path
does not match, the comparator classifies the pair as identical exactly when
the two SHA-256 digests are equal AND the first digest is non-empty; in
particular two unreadable files (both with the empty digest) are classified
as different, not identical. -/
theorem comparator_hash_amended (p : String) (m1 m2 : FileMeta)
    (hfast : ¬(m1.size = m2.size ∧ m1.mtime = m2.mtime)) :
    ((compare_inventories [(p, m1)] [(p, m2)]).identical = [p] ∧
       (compare_inventories [(p, m1)] [(p, m2)]).different = [] ↔
     m1.digest ≠ "" ∧ m1.digest = m2.digest) ∧
    ((compare_inventories [(p, m1)] [(p, m2)]).identical = [] ∧
       (compare_inventories [(p, m1)] [(p, m2)]).different = [p] ↔
     ¬(m1.digest ≠ "" ∧ m1.digest = m2.digest)) := by
  have hfastb : (m1.size == m2.size && m1.mtime == m2.mtime) = false := by
    cases hb : (m1.size == m2.size && m1.mtime == m2.mtime) with
    | false => rfl
    | true =>
      simp only [Bool.and_eq_true, beq_iff_eq] at hb
      exact absurd hb hfast
  have hclass : classifyIdentical m1 m2 =
      (m1.digest != "" && m1.digest == m2.digest) := by
    rw [classifyIdentical, hfastb]
    simp
  have hcomp : compare_inventories [(p, m1)] [(p, m2)] =
      { only_in_config1 := [], only_in_config2 := [],
        identical :=
          if (m1.digest != "" && m1.digest == m2.digest) = true then [p]
          else [],
        different :=
          if (m1.digest != "" && m1.digest == m2.digest) = true then []
          else [p] } := by
    rw [compare_inventories]
    simp only [keysOf, memKeys, lookupInv, List.map_cons, List.map_nil,
      List.any_cons, List.any_nil, List.filter_cons, List.filter_nil,
      List.find?_cons, beq_self_eq_true, Bool.or_false, Bool.not_true,
      if_true, hclass]
    by_cases hb : (m1.digest != "" && m1.digest == m2.digest) = true <;>
      simp [hb, sortStr, insortStr]
  rw [hcomp]
  by_cases hd : m1.digest ≠ "" ∧ m1.digest = m2.digest
  · have h1 : (m1.digest != "") = true := bne_iff_ne.mpr hd.1
    have h2 : (m1.digest == m2.digest) = true := beq_iff_eq.mpr hd.2
    have hb : (m1.digest != "" && m1.digest == m2.digest) = true := by
      rw [h1, h2]
      rfl
    simp [hb, hd]
  · have hb : (m1.digest != "" && m1.digest == m2.digest) = false := by
      cases hb2 : (m1.digest != "" && m1.digest == m2.digest) with
      | false => rfl
      | true =>
        simp only [Bool.and_eq_true, bne_iff_ne, beq_iff_eq] at hb2
        exact absurd hb2 hd
    simp [hb, hd]

/-- C6 (counterexample): two files with equal (empty) digests — the
unreadable-file case — whose fast path fails are classified as different,
while the claim says equal digests classify as identical. -/
theorem comparator_hash_counterexample :
    (compare_inventories [("f", ⟨1, 0, ""⟩)] [("f", ⟨2, 0, ""⟩)]).identical
      = ([] : List String) ∧
    (compare_inventories [("f", ⟨1, 0, ""⟩)] [("f", ⟨2, 0, ""⟩)]).different
      = ["f"] ∧
    FileMeta.digest ⟨1, 0, ""⟩ = FileMeta.digest ⟨2, 0, ""⟩ ∧
    FileMeta.size (⟨1, 0, ""⟩ : FileMeta) ≠ FileMeta.size (⟨2, 0, ""⟩ : FileMeta) := by
  decide

/-- C6 (witness): the amended hash-fallback theorem at concrete metadata. -/
theorem comparator_hash_amended_witness :
    ((compare_inventories [("f", ⟨1, 0, "d"⟩)] [("f", ⟨2, 0, "d"⟩)]).identical = ["f"] ∧
       (compare_inventories [("f", ⟨1, 0, "d"⟩)] [("f", ⟨2, 0, "d"⟩)]).different = [] ↔
     FileMeta.digest ⟨1, 0, "d"⟩ ≠ "" ∧
       FileMeta.digest ⟨1, 0, "d"⟩ = FileMeta.digest ⟨2, 0, "d"⟩) ∧
    ((compare_inventories [("f", ⟨1, 0, "d"⟩)] [("f", ⟨2, 0, "d"⟩)]).identical = [] ∧
       (compare_inventories [("f", ⟨1, 0, "d"⟩)] [("f", ⟨2, 0, "d"⟩)]).different = ["f"] ↔
     ¬(FileMeta.digest ⟨1, 0, "d"⟩ ≠ "" ∧
       FileMeta.digest ⟨1, 0, "d"⟩ = FileMeta.digest ⟨2, 0, "d"⟩)) :=
  comparator_hash_amended "f" ⟨1, 0, "d"⟩ ⟨2, 0, "d"⟩ (by decide)

/-- Characters the validator rejects beyond the spec's reserved list. -/
def strictExtraChars : List Char := ['.', '*', '?', '<', '>', '|']

/-- C10: any name containing one of `.`, `*`, `?`, `<`, `>`, `|` fails
validation, and the public create/activate/rename/delete operations all
raise on such a name (as target or source) without mutating the store. -/
theorem dotted_names_rejected (s : St) (tmpl other name : String) (c : Char)
    (hc : c ∈ strictExtraChars) (hmem : c ∈ name.data) :
    valid_config_name name = false ∧
    ((create_config s tmpl name).2.isSome = true ∧
      (create_config s tmpl name).1 = s) ∧
    ((activate_config s name false none).2.1.isSome = true ∧
      (activate_config s name false none).1 = s) ∧
    ((rename_config s name other).2.isSome = true ∧
      (rename_config s name other).1 = s) ∧
    ((rename_config s other name).2.isSome = true ∧
      (rename_config s other name).1 = s) ∧
    ((delete_config s name).2.isSome = true ∧
      (delete_config s name).1 = s) := by
  have hsub : ∀ x ∈ strictExtraChars, illegalChars.contains x = true := by
    decide
  have hvn : valid_config_name name = false :=
    char_rejected c (hsub c hc) name hmem
  have hnc : name ≠ "current" := by
    intro hh
    have hmem' : c ∈ "current".data := hh ▸ hmem
    have hforb : ∀ x ∈ strictExtraChars, ¬ x ∈ "current".data := by decide
    exact hforb c hc hmem'
  have hne : (name == "current") = false := by simpa using hnc
  refine ⟨hvn, ?_, ?_, ?_, ?_, ?_⟩
  · rw [create_config]
    split_ifs <;> simp_all [config_exists]
  · rw [activate_config]
    simp [hne, hvn]
  · rw [rename_config]
    split_ifs <;> simp_all
  · rw [rename_config]
    split_ifs <;> simp_all
  · rw [delete_config]
    split_ifs <;> simp_all [config_exists]

/-- C10 (witness): the strict-character theorem applied to "v1.0". -/
theorem dotted_names_rejected_witness :
    valid_config_name "v1.0" = false :=
  (dotted_names_rejected
    { tree := [], manifest := .absent, current := .absent, configs := [] }
    "t" "o" "v1.0" '.' (by decide) (by decide)).1

end WhlConf
